import Mathlib

/-!
Verification of the caching / pagination / authentication decorator layer of
the `lastfm` package (files `lastfm/decorators.py` and `lastfm/group.py`),
via a shallow embedding of the relevant Python code in Lean.
-/

namespace Lastfm

/-! ### A small model of Python values

Only the value shapes the decorators actually touch are modelled:
`None`, integers, strings and lists. -/

inductive PyV where
  | none : PyV
  | int (n : Int) : PyV
  | str (s : String) : PyV
  | list (l : List PyV) : PyV
deriving Repr

/-- Python `x is None` (the check used by `cached_property`). -/
def PyV.isNone : PyV → Bool
  | PyV.none => true
  | _ => false

/-- Python truthiness: `None`, `0`, `""` and `[]` are falsy. -/
def PyV.truthy : PyV → Bool
  | PyV.none => false
  | PyV.int n => n != 0
  | PyV.str s => s != ""
  | PyV.list l => !l.isEmpty

/-! ### `top_property` (decorators.py lines 24-28)

`wrapper(ob)` evaluates `len(top_list) and top_list[0] or None` on the list
attribute `top_list`.  Python's `a and b` returns `a` when `a` is falsy and
`b` otherwise; `x or c` returns `x` when `x` is truthy and `c` otherwise.
The left operand `len(top_list)` guards the indexing, so `top_list[0]` is
only evaluated on a non-empty list. -/

def top_wrapper (top_list : List PyV) : PyV :=
  let lenV : PyV := PyV.int top_list.length
  let conj : PyV := if lenV.truthy then top_list.headD PyV.none else lenV
  if conj.truthy then conj else PyV.none

/-! ### `cached_property` (decorators.py lines 44-58), value-level behaviour

```
cache_attribute = getattr(ob, attribute_name, None)
if cache_attribute is None:
    cache_attribute = func(ob)
    setattr(ob, attribute_name, cache_attribute)
try:
    cp = copy.copy(cache_attribute)
    return cp
except LastfmError:
    return cache_attribute
```

The per-instance slot is modelled as a `PyV`: `getattr` with default `None`
makes an absent slot indistinguishable from a stored `None`, so the fresh
state is `PyV.none`.  `copy.copy` of the plain values modelled here succeeds
and yields a structurally equal value (aliasing of the copy is studied
separately in the heap model below). -/

/-- `copy.copy` on a plain value: a shallow copy, structurally equal. -/
def pyCopy : PyV → PyV
  | PyV.none => PyV.none
  | PyV.int n => PyV.int n
  | PyV.str s => PyV.str s
  | PyV.list l => PyV.list l

/-- One read of a cached property.  `compute` is the outcome of `func(ob)`
(value or raised exception); `slot` is the instance slot.  Returns the
read's outcome, the new slot, and whether `func` was invoked. -/
def cachedRead {ε : Type} (compute : Except ε PyV) (slot : PyV) :
    Except ε PyV × PyV × Bool :=
  if slot.isNone then
    match compute with
    | Except.error e => (Except.error e, slot, true)
    | Except.ok v => (Except.ok (pyCopy v), v, true)
  else
    (Except.ok (pyCopy slot), slot, false)

/-- `n` successive reads of the property on one instance: the list of
outcomes, the final slot, and the number of invocations of `func`. -/
def readN {ε : Type} (compute : Except ε PyV) :
    Nat → PyV → List (Except ε PyV) × PyV × Nat
  | 0, slot => ([], slot, 0)
  | n + 1, slot =>
      let r := cachedRead compute slot
      let rest := readN compute n r.2.1
      (r.1 :: rest.1, rest.2.1, rest.2.2 + (if r.2.2 then 1 else 0))

/-! ### The copy fallback of `cached_property` (decorators.py lines 52-56)

```
try:
    cp = copy.copy(cache_attribute)
    return cp
except LastfmError:
    return cache_attribute
```

To study what happens when `copy.copy` itself fails, the cached value is
modelled by a kind that records whether copying succeeds, and a failed copy
by an exception class: Python's `copy.copy` raises `copy.Error` (or
`TypeError`) for a value whose type does not support copying, and never a
`LastfmError` (the package's own exception class) for the values stored
here.  The `except` clause of the source names `LastfmError` only. -/

/-- The exception class raised by a failed `copy.copy`. -/
inductive CopyErr where
  | copyError : CopyErr
  | lastfmError : CopyErr
deriving Repr, DecidableEq

/-- A cached value, classified by how `copy.copy` behaves on it. -/
inductive CVal where
  /-- a value that copies fine -/
  | plain (n : Int) : CVal
  /-- a value of a type that does not support copying -/
  | uncopyable (tag : Nat) : CVal
deriving Repr, DecidableEq

/-- `copy.copy` on a `CVal`: uncopyable values raise `copy.Error`. -/
def copyAttempt : CVal → Except CopyErr CVal
  | CVal.plain n => Except.ok (CVal.plain n)
  | CVal.uncopyable _ => Except.error CopyErr.copyError

/-- The return path of the `cached_property` wrapper once the slot holds a
value: copy it and return the copy, and only a `LastfmError` raised by the
copy makes it return the stored value itself. -/
def cachedReturn (slot : CVal) : Except CopyErr CVal :=
  match copyAttempt slot with
  | Except.ok cp => Except.ok cp
  | Except.error CopyErr.lastfmError => Except.ok slot
  | Except.error CopyErr.copyError => Except.error CopyErr.copyError

/-! ### A heap model for `copy.copy` aliasing (claim about mutation isolation)

Python lists are mutable heap objects; `copy.copy` of a list allocates a new
list holding the *same* element references.  A tiny heap of integer cells
and list nodes captures this: an address is an index into the heap, a list
node stores the addresses of its elements. -/

/-- A heap object: an integer cell or a list of addresses. -/
inductive Node where
  | intN (n : Int) : Node
  | listN (cs : List Nat) : Node
deriving Repr, DecidableEq

/-- The heap: address `a` is index `a`; allocation appends. -/
abbrev Heap := List Node

/-- Read the object at address `a` (a dummy cell for a dangling address). -/
def Heap.node (h : Heap) (a : Nat) : Node :=
  List.getD h a (Node.intN 0)

/-- Heap size (the next fresh address). -/
def Heap.size (h : Heap) : Nat := List.length h

/-- Allocate a new object, returning the heap and the fresh address. -/
def Heap.alloc (h : Heap) (nd : Node) : Heap × Nat :=
  (List.append h [nd], h.size)

/-- `copy.copy` of the object at `a`: allocate a new node with the same
content — for a list node, the same element addresses (a shallow copy). -/
def Heap.shallowCopy (h : Heap) (a : Nat) : Heap × Nat :=
  h.alloc (h.node a)

/-- Mutate the list object at address `a`: set its element `i` to point at
address `c` (Python `lst[i] = x`).  Non-list objects are left unchanged. -/
def Heap.setChild (h : Heap) (a i c : Nat) : Heap :=
  match h.node a with
  | Node.listN cs => List.set h a (Node.listN (List.set cs i c))
  | Node.intN _ => h

/-- The value tree seen from address `a`, up to a depth `fuel`. -/
inductive PTree where
  | leaf (n : Int) : PTree
  | node (ts : List PTree) : PTree
  | bottom : PTree
deriving Repr

/-- Deep read of the structure reachable from `a`. -/
def Heap.deepVal (h : Heap) : Nat → Nat → PTree
  | 0, _ => PTree.bottom
  | fuel + 1, a =>
      match h.node a with
      | Node.intN n => PTree.leaf n
      | Node.listN cs => PTree.node (cs.map (h.deepVal fuel))

/-- Well-formed heap: every address stored in a list node is allocated. -/
def Heap.wf (h : Heap) : Bool :=
  List.all h (fun nd =>
    match nd with
    | Node.listN cs => cs.all (fun c => decide (c < h.size))
    | Node.intN _ => true)

/-! ### `authenticate` (decorators.py lines 75-100)

The wrapper resolves a session from the calling object through an
`if`/`elif` cascade:

1. `self` itself a `User`: note its name; call `func` if authenticated;
2. `self` has a `user` attribute: note its name; call if authenticated;
3. `self` has a `_subject` that is a `User`: same;
4. `self` has an `_api` that is an `Api`: call
   `self._api.get_authenticated_user()`; on success note the name and call
   `func`; an `AuthenticationFailedError` from it is swallowed;
5. otherwise, and whenever no branch returned,
   raise `AuthenticationFailedError` naming `username` (still `None` when
   no branch set it).

A caller is modelled by which of these shapes it exposes; the name of a
user is an `Option String` since a `User` may have `name = None`. -/

/-- A `User` as the gate sees it: a (possibly absent) name and the
`authenticated` flag. -/
structure AUser where
  name : Option String
  authenticated : Bool
deriving Repr, DecidableEq

/-- The calling object, by the attributes the cascade probes.
`apiAuthUser = some (Except.error ())` models an `_api` whose
`get_authenticated_user()` raises `AuthenticationFailedError`. -/
structure Caller where
  selfUser : Option AUser
  userAttr : Option AUser
  subjectAttr : Option AUser
  apiAuthUser : Option (Except Unit AUser)
deriving Repr

/-- The `authenticate` wrapper applied to a pure `func`: the outcome
(`Except.error u` is `AuthenticationFailedError` naming `u`) paired with
the number of invocations of `func`. -/
def authWrapper {α : Type} (func : Unit → α) (self : Caller) :
    Except (Option String) α × Nat :=
  match self.selfUser with
  | some u =>
      if u.authenticated then (Except.ok (func ()), 1)
      else (Except.error u.name, 0)
  | none =>
  match self.userAttr with
  | some u =>
      if u.authenticated then (Except.ok (func ()), 1)
      else (Except.error u.name, 0)
  | none =>
  match self.subjectAttr with
  | some u =>
      if u.authenticated then (Except.ok (func ()), 1)
      else (Except.error u.name, 0)
  | none =>
  match self.apiAuthUser with
  | some (Except.ok _) => (Except.ok (func ()), 1)
  | some (Except.error _) => (Except.error none, 0)
  | none => (Except.error none, 0)

/-- Spec-side reading of the cascade: is the session resolved from the
caller authenticated?  (The `_api` branch counts as authenticated exactly
when `get_authenticated_user()` succeeds.) -/
def resolvedAuthenticated (self : Caller) : Bool :=
  match self.selfUser with
  | some u => u.authenticated
  | none =>
  match self.userAttr with
  | some u => u.authenticated
  | none =>
  match self.subjectAttr with
  | some u => u.authenticated
  | none =>
  match self.apiAuthUser with
  | some (Except.ok _) => true
  | _ => false

/-- Spec-side reading of the cascade: the (possibly unknown) identity the
error message names when the call is denied. -/
def resolvedIdentity (self : Caller) : Option String :=
  match self.selfUser with
  | some u => u.name
  | none =>
  match self.userAttr with
  | some u => u.name
  | none =>
  match self.subjectAttr with
  | some u => u.name
  | none => none

/-! ### `async_callback` (decorators.py lines 157-181)

The wrapper scans the positional arguments for the first callable and
removes it, then lets a `callback` keyword argument override it (and deletes
the keyword).  If the resulting callback is a callable, the call is
dispatched: the worker runs `func` under `try`/`except`, binds `result` to
the return value or to the raised exception, and calls the callback once
with `result`; the wrapper itself returns `None` at once.  Otherwise `func`
runs synchronously.

A positional argument is modelled as either a callable (identified by a
tag) or a plain value; the worker's callback invocations are recorded as
the list of values delivered. -/

/-- A positional (or `callback`-keyword) argument. -/
inductive Arg (α : Type) where
  | callable (tag : Nat) : Arg α
  | plain (v : α) : Arg α
deriving Repr, DecidableEq

/-- Scan the positional arguments for the first callable one and remove it
(the `for a in args: if callable(a): ... args.remove(a)` loop). -/
def extractCallable {α : Type} : List (Arg α) → Option Nat × List (Arg α)
  | [] => (none, [])
  | Arg.callable t :: rest => (some t, rest)
  | Arg.plain v :: rest =>
      let r := extractCallable rest
      (r.1, Arg.plain v :: r.2)

/-- The callback the wrapper ends up with: the `callback` keyword argument
when present (whatever its shape), else the callable found positionally. -/
def resolvedCallback {α : Type} (args : List (Arg α)) (kwcb : Option (Arg α)) :
    Option (Arg α) :=
  match kwcb with
  | some a => some a
  | none => (extractCallable args).1.map Arg.callable

/-- The worker body `async_call`: `result` is the return value of `func`,
or the exception it raised; the callback is then called with `result`.
Returns the list of values delivered to the callback. -/
def asyncCall {β ε : Type} (outcome : Except ε β) : List (Except ε β) :=
  match outcome with
  | Except.ok v => [Except.ok v]
  | Except.error e => [Except.error e]

/-- The observable outcome of one call of the wrapper: a synchronous return
(or raise), or a dispatch recording which callback ran and every value
delivered to it. -/
inductive Outcome (β ε : Type) where
  | sync (r : Except ε β) : Outcome β ε
  | dispatched (cb : Nat) (delivered : List (Except ε β)) : Outcome β ε
deriving Repr

/-- The `async_callback` wrapper: `func` consumes the positional arguments
that remain after the callback is removed. -/
def asyncWrapper {α β ε : Type} (func : List (Arg α) → Except ε β)
    (args : List (Arg α)) (kwcb : Option (Arg α)) : Outcome β ε :=
  match resolvedCallback args kwcb with
  | some (Arg.callable t) =>
      Outcome.dispatched t (asyncCall (func (extractCallable args).2))
  | _ => Outcome.sync (func (extractCallable args).2)

/-- Spec-side contract of the wrapper: with a callable callback the call is
dispatched and the callback receives exactly one value, the outcome of
`func`; without one, `func` runs synchronously. -/
def asyncContract {α β ε : Type} (func : List (Arg α) → Except ε β)
    (args : List (Arg α)) (kwcb : Option (Arg α)) : Outcome β ε :=
  match resolvedCallback args kwcb with
  | some (Arg.callable t) =>
      Outcome.dispatched t [func (extractCallable args).2]
  | _ => Outcome.sync (func (extractCallable args).2)

/-! ### `depaginate` (decorators.py lines 114-127) and `Group.members`
(group.py lines 100-128)

The decorated page fetchers are generators whose first yield is the total
page count and whose later yields are the page's elements; a fetch is
modelled as `f : Nat → Nat × List α`, page number to (total reported,
elements).  A fetch issued without a `page` parameter returns page 1 (the
remote service's default), so the initial unparameterized fetch is `f 1`.

`depaginate` yields the rest of page 1 after reading the total from its
first yield, then for `page in xrange(2, total_pages + 1)` fetches that
page, discards its leading total, and yields its elements.

`Group.members` reads `totalPages` from the initial fetch, yields that
fetch's users, and then for `page in xrange(1, total_pages + 1)` — from 1,
not 2 — fetches and yields each page. -/

/-- The full element sequence produced by the `depaginate` wrapper. -/
def depaginateElems {α : Type} (f : Nat → Nat × List α) : List α :=
  let total := (f 1).1
  (f 1).2 ++ (List.range' 2 (total - 1)).flatMap (fun page => (f page).2)

/-- The full element sequence produced by `Group.members`. -/
def membersElems {α : Type} (f : Nat → Nat × List α) : List α :=
  let total := (f 1).1
  (f 1).2 ++ (List.range' 1 total).flatMap (fun page => (f page).2)

/-- The concatenation of pages 1 .. total, each exactly once: what the spec
says a depaginated sequence enumerates. -/
def pagesConcat {α : Type} (f : Nat → Nat × List α) : List α :=
  (List.range' 1 (f 1).1).flatMap (fun page => (f page).2)

/-- A three-page example fetcher: pages `[10, 11]`, `[12]`, `[13]`,
reporting `totalPages = 3`. -/
def exFetch : Nat → Nat × List Nat
  | 1 => (3, [10, 11])
  | 2 => (3, [12])
  | 3 => (3, [13])
  | _ => (3, [])

/-! ### `Group` identity (group.py lines 137-151)

```
@staticmethod
def _hash_func(*args, **kwds):
    try:
        return hash(kwds['name'])
    except KeyError:
        raise InvalidParametersError("name has to be provided for hashing")

def __hash__(self):
    return self.__class__._hash_func(name = self.name)

def __eq__(self, other):
    return self.name == other.name
```

`kwds['name']` raises `KeyError` only when the keyword is absent; a `name`
that is present but `None` hashes fine, since `hash(None)` is defined.
`__hash__` always supplies the keyword. -/

/-- The package's `InvalidParametersError`. -/
inductive IdErr where
  | invalidParameters : IdErr
deriving Repr, DecidableEq

/-- A deterministic stand-in for Python's builtin `hash` on the values a
group name can be; only its determinism matters to the claims. -/
def pyHash : PyV → Int
  | PyV.none => 0
  | PyV.int n => n
  | PyV.str s => Int.ofNat (s.foldl (fun h c => h * 31 + c.toNat) 7)
  | PyV.list l => Int.ofNat l.length

/-- `Group._hash_func`, its keyword dictionary reduced to the only key it
reads: `kwname` is `kwds['name']` when the keyword is present. -/
def hash_func (kwname : Option PyV) : Except IdErr Int :=
  match kwname with
  | some v => Except.ok (pyHash v)
  | none => Except.error IdErr.invalidParameters

/-- A `Group` as identity sees it: its `name` attribute (possibly `None`). -/
structure Group where
  name : PyV
deriving Repr

/-- `Group.__hash__`: always passes `name = self.name`. -/
def groupHash (g : Group) : Except IdErr Int :=
  hash_func (some g.name)

/-- Python `==` on the plain values modelled here: structural equality. -/
def pyEq : PyV → PyV → Bool
  | PyV.none, PyV.none => true
  | PyV.int a, PyV.int b => a == b
  | PyV.str a, PyV.str b => a == b
  | PyV.list [], PyV.list [] => true
  | PyV.list (a :: as), PyV.list (b :: bs) =>
      pyEq a b && pyEq (PyV.list as) (PyV.list bs)
  | _, _ => false

/-- `Group.__eq__`: compares the `name` attributes. -/
def groupEq (g1 g2 : Group) : Bool :=
  pyEq g1.name g2.name

/-! ## Helper lemmas -/

theorem pyCopy_eq (v : PyV) : pyCopy v = v := by
  cases v <;> rfl

/-- After the slot holds a non-`None` value `v`, further reads never invoke
`func` again and each returns `v`. -/
theorem readN_stable {ε : Type} (compute : Except ε PyV) (v : PyV)
    (hv : v.isNone = false) (n : Nat) :
    readN compute n v = (List.replicate n (Except.ok v), v, 0) := by
  induction n with
  | zero => rfl
  | succ n ih =>
      simp only [readN, cachedRead, hv, Bool.false_eq_true, if_false,
        if_neg, ih, pyCopy_eq, List.replicate_succ]

/-- Reads starting from a fresh slot, with `func` returning a non-`None`
value `v`: one invocation, every read returns `v`, the slot ends at `v`. -/
theorem readN_ok_fresh {ε : Type} (v : PyV) (hv : v.isNone = false)
    (n : Nat) (hn : 1 ≤ n) :
    readN (Except.ok v : Except ε PyV) n PyV.none =
      (List.replicate n (Except.ok v), v, 1) := by
  obtain ⟨m, rfl⟩ : ∃ m, n = m + 1 := ⟨n - 1, by omega⟩
  simp [readN, cachedRead, PyV.isNone, readN_stable (Except.ok v) v hv m,
    pyCopy_eq, List.replicate_succ]

/-- Reads starting from a fresh slot, with `func` raising: every read
re-invokes `func`, re-raises, and leaves the slot unset. -/
theorem readN_error {ε : Type} (e : ε) (n : Nat) :
    readN (Except.error e : Except ε PyV) n PyV.none =
      (List.replicate n (Except.error e), PyV.none, n) := by
  induction n with
  | zero => rfl
  | succ n ih => simp [readN, cachedRead, PyV.isNone, ih, List.replicate_succ]

theorem asyncCall_eq {β ε : Type} (o : Except ε β) : asyncCall o = [o] := by
  cases o <;> rfl

/-- In a well-formed heap, the children of a list node are allocated. -/
theorem wf_children {h : Heap} (hwf : h.wf = true) {a : Nat}
    (ha : a < h.size) {cs : List Nat} (hnode : h.node a = Node.listN cs) :
    ∀ c ∈ cs, c < h.size := by
  intro c hc
  have hmem : Node.listN cs ∈ h := by
    rw [← hnode]
    have h1 : h.node a = h[a] := List.getD_eq_getElem h (Node.intN 0) ha
    rw [h1]
    exact List.getElem_mem ha
  simp only [Heap.wf] at hwf
  have hall : cs.all (fun c => decide (c < h.size)) = true :=
    List.all_eq_true.mp hwf _ hmem
  exact of_decide_eq_true (List.all_eq_true.mp hall c hc)

/-- Deep reads below the allocated frontier only depend on the nodes below
it. -/
theorem deepVal_agree (h h2 : Heap) (hwf : h.wf = true)
    (hag : ∀ b, b < h.size → h2.node b = h.node b) :
    ∀ fuel a, a < h.size → h2.deepVal fuel a = h.deepVal fuel a := by
  intro fuel
  induction fuel with
  | zero => intro a _; rfl
  | succ fuel ih =>
      intro a ha
      show Heap.deepVal h2 (fuel + 1) a = Heap.deepVal h (fuel + 1) a
      rw [Heap.deepVal, Heap.deepVal, hag a ha]
      cases hnode : h.node a with
      | intN n => rfl
      | listN cs =>
          show PTree.node (cs.map (h2.deepVal fuel)) =
            PTree.node (cs.map (h.deepVal fuel))
          exact congrArg PTree.node (List.map_congr_left (fun c hc =>
            ih c (wf_children hwf ha hnode c hc)))

/-- Reading below the length of the left part of an appended heap. -/
theorem node_append_lt (h : Heap) (l : List Node) (b : Nat)
    (hb : b < h.size) : Heap.node (h ++ l) b = h.node b := by
  simp only [Heap.node]
  exact List.getD_append h l (Node.intN 0) b hb

/-- Updating one address leaves every other address unchanged. -/
theorem node_set_ne (L : Heap) (j : Nat) (nd2 : Node) (b : Nat)
    (hjb : j ≠ b) : Heap.node (List.set L j nd2) b = Heap.node L b := by
  simp only [Heap.node, List.getD, List.get?_eq_getElem?]
  rw [List.getElem?_set_ne hjb]

/-- `depaginate` produces exactly the concatenation of pages
1 .. totalPages when at least one page is reported. -/
theorem depaginate_eq_pagesConcat {α : Type} (f : Nat → Nat × List α)
    (htotal : 1 ≤ (f 1).1) : depaginateElems f = pagesConcat f := by
  rw [depaginateElems, pagesConcat]
  obtain ⟨m, hm⟩ : ∃ m, (f 1).1 = m + 1 := ⟨(f 1).1 - 1, by omega⟩
  rw [hm]
  rw [show m + 1 - 1 = m from rfl]
  rw [List.range'_succ]
  simp

/-! ## The claims -/

/-- Claim C1, counterexample.  The claim says the computation of a memoized
attribute runs exactly once "regardless of what value the computation
returned".  Not so when `func` returns `None`: the slot then stores `None`,
which the `is None` check cannot tell from an unset slot, so each of two
reads invokes `func` again (invocation count 2, not 1). -/
theorem cached_property_none_recomputes :
    readN (Except.ok PyV.none : Except Unit PyV) 2 PyV.none =
      ([Except.ok PyV.none, Except.ok PyV.none], PyV.none, 2) ∧
    (2 : Nat) ≠ 1 :=
  ⟨rfl, by decide⟩

/-- Claim C1, amended: for a computed value that is not `None`, the
computation runs exactly once across any positive number of reads, its
value is stored in the slot, and every read returns that value. -/
theorem cached_property_single_invocation {ε : Type} (v : PyV)
    (hv : v.isNone = false) (n : Nat) (hn : 1 ≤ n) :
    readN (Except.ok v : Except ε PyV) n PyV.none =
      (List.replicate n (Except.ok v), v, 1) :=
  readN_ok_fresh v hv n hn

/-- Witness for the amended claim C1 at `v = 5`, three reads. -/
theorem cached_property_single_invocation_witness :
    (PyV.int 5).isNone = false ∧ 1 ≤ 3 ∧
    readN (Except.ok (PyV.int 5) : Except Unit PyV) 3 PyV.none =
      (List.replicate 3 (Except.ok (PyV.int 5)), PyV.int 5, 1) :=
  ⟨rfl, by decide,
    cached_property_single_invocation (PyV.int 5) rfl 3 (by decide)⟩

/-- Claim C3: a raising computation propagates its failure and leaves the
slot exactly as it was (still unset), so every later read re-invokes it;
by contrast a successful empty collection is cached like any value, the
computation then running exactly once. -/
theorem cached_property_failure_not_cached {ε : Type} (e : ε) (n : Nat) :
    readN (Except.error e : Except ε PyV) n PyV.none =
      (List.replicate n (Except.error e), PyV.none, n) ∧
    (1 ≤ n →
      readN (Except.ok (PyV.list []) : Except ε PyV) n PyV.none =
        (List.replicate n (Except.ok (PyV.list [])), PyV.list [], 1)) :=
  ⟨readN_error e n, fun hn => readN_ok_fresh (PyV.list []) rfl n hn⟩

/-- Witness for claim C3 at two reads. -/
theorem cached_property_failure_not_cached_witness :
    readN (Except.error 0 : Except Nat PyV) 2 PyV.none =
      (List.replicate 2 (Except.error 0), PyV.none, 2) ∧
    readN (Except.ok (PyV.list []) : Except Nat PyV) 2 PyV.none =
      (List.replicate 2 (Except.ok (PyV.list [])), PyV.list [], 1) :=
  ⟨(cached_property_failure_not_cached 0 2).1,
   (cached_property_failure_not_cached 0 2).2 (by decide)⟩

/-- Claim C7: the claim says a cached value whose type does not support
copying is returned by reference instead of the copy failure propagating.
In the code the `except` clause around `copy.copy` names `LastfmError`,
which a failed copy does not raise (`copy.copy` raises `copy.Error`), so
the copy failure propagates to the caller; an ordinary value is returned
as a copy. -/
theorem copy_failure_propagates :
    cachedReturn (CVal.uncopyable 0) = Except.error CopyErr.copyError ∧
    cachedReturn (CVal.plain 7) = Except.ok (CVal.plain 7) :=
  ⟨rfl, rfl⟩

/-- Claim C10: the property built by `top_property` returns `None` on an
empty list, the first element when it is truthy, and `None` when the first
element is falsy. -/
theorem top_property_first_or_none (l : List PyV) :
    top_wrapper l = (match l with
      | [] => PyV.none
      | x :: _ => if x.truthy then x else PyV.none) := by
  cases l with
  | nil => rfl
  | cons x xs =>
      have hne : ((xs.length : Int) + 1) ≠ 0 := by omega
      simp [top_wrapper, PyV.truthy, hne]

/-- Claim C6, counterexample.  The claim says mutation of a returned copy,
"including mutation of nested structure", leaves the cached original
unchanged.  `copy.copy` is a shallow copy: in the heap
`[1 ↦ [0], 2 ↦ [1]]` (the value `[[1]]` cached at address 2), copying
address 2 yields address 3 sharing the inner list at address 1; writing the
fresh cell `99` (address 4) into that inner list through the copy changes
the deep value of the cached original from `[[1]]` to `[[99]]`. -/
theorem shallow_copy_shares_nested_structure :
    Heap.deepVal
      (Heap.setChild
        ((Heap.alloc
          ((Heap.shallowCopy [Node.intN 1, Node.listN [0], Node.listN [1]] 2).1)
          (Node.intN 99)).1)
        1 0 4)
      3 2 = PTree.node [PTree.node [PTree.leaf 99]] ∧
    Heap.deepVal [Node.intN 1, Node.listN [0], Node.listN [1]] 3 2 =
      PTree.node [PTree.node [PTree.leaf 1]] ∧
    PTree.node [PTree.node [PTree.leaf 99]] ≠
      PTree.node [PTree.node [PTree.leaf 1]] := by
  refine ⟨rfl, rfl, ?_⟩
  intro hEq
  simp at hEq

/-- Claim C6, amended: each read returns a shallow copy, so mutating the
returned value's own (top-level) structure leaves the cached original's
deep value unchanged; nested structure, however, is shared with the
original (see the counterexample). -/
theorem cached_copy_top_level_isolated (h : Heap) (a : Nat)
    (hwf : h.wf = true) (ha : a < h.size) (fuel i c : Nat) :
    Heap.deepVal
      (Heap.setChild (h.shallowCopy a).1 (h.shallowCopy a).2 i c) fuel a =
      Heap.deepVal h fuel a := by
  refine deepVal_agree h _ hwf ?_ fuel a ha
  intro b hb
  show Heap.node (Heap.setChild (h ++ [h.node a]) h.size i c) b = h.node b
  rw [Heap.setChild]
  cases hn : Heap.node (h ++ [h.node a]) h.size with
  | intN n => exact node_append_lt h [h.node a] b hb
  | listN cs =>
      show Heap.node
        (List.set (h ++ [h.node a]) h.size (Node.listN (List.set cs i c))) b
        = h.node b
      rw [node_set_ne _ _ _ _ (by omega)]
      exact node_append_lt h [h.node a] b hb

/-- Witness for the amended claim C6: copying the list at address 1 of the
heap `[0 ↦ 1, 1 ↦ [0]]` and mutating the copy leaves the original's deep
value intact. -/
theorem cached_copy_top_level_isolated_witness :
    Heap.wf [Node.intN 1, Node.listN [0]] = true ∧
    1 < Heap.size [Node.intN 1, Node.listN [0]] ∧
    Heap.deepVal
      (Heap.setChild (Heap.shallowCopy [Node.intN 1, Node.listN [0]] 1).1
        (Heap.shallowCopy [Node.intN 1, Node.listN [0]] 1).2 0 0) 2 1 =
      Heap.deepVal [Node.intN 1, Node.listN [0]] 2 1 :=
  ⟨rfl, by decide,
    cached_copy_top_level_isolated [Node.intN 1, Node.listN [0]] 1 rfl
      (by decide) 2 0 0⟩

/-- Claim C4: the guarded call runs the wrapped function exactly once and
returns its result when the session resolved by the cascade is
authenticated, and otherwise raises `AuthenticationFailedError` naming the
(possibly unknown) resolved identity without invoking the function. -/
theorem authenticate_gate {α : Type} (func : Unit → α) (self : Caller) :
    authWrapper func self =
      if resolvedAuthenticated self then (Except.ok (func ()), 1)
      else (Except.error (resolvedIdentity self), 0) := by
  obtain ⟨su, ua, sa, au⟩ := self
  cases su with
  | some u =>
      cases hu : u.authenticated <;>
        simp [authWrapper, resolvedAuthenticated, resolvedIdentity, hu]
  | none =>
  cases ua with
  | some u =>
      cases hu : u.authenticated <;>
        simp [authWrapper, resolvedAuthenticated, resolvedIdentity, hu]
  | none =>
  cases sa with
  | some u =>
      cases hu : u.authenticated <;>
        simp [authWrapper, resolvedAuthenticated, resolvedIdentity, hu]
  | none =>
  cases au with
  | some r =>
      cases r <;>
        simp [authWrapper, resolvedAuthenticated, resolvedIdentity]
  | none => simp [authWrapper, resolvedAuthenticated, resolvedIdentity]

/-- Claim C5: with a callable completion callback (positional or keyword),
the call is dispatched and the callback receives exactly one value — the
wrapped function's return value or its raised exception; without one, the
function runs synchronously and its outcome is the caller's. -/
theorem async_callback_once {α β ε : Type}
    (func : List (Arg α) → Except ε β) (args : List (Arg α))
    (kwcb : Option (Arg α)) :
    asyncWrapper func args kwcb = asyncContract func args kwcb := by
  rw [asyncWrapper, asyncContract]
  cases resolvedCallback args kwcb with
  | none => rfl
  | some a =>
      cases a with
      | callable t =>
          exact congrArg (Outcome.dispatched t) (asyncCall_eq _)
      | plain v => rfl

/-- Claim C2: the claim requires each page's elements to be contributed
exactly once.  `depaginate` does so, but `Group.members` re-fetches page 1
(its loop runs `xrange(1, total_pages + 1)` after the initial fetch was
already consumed), so with pages `[10, 11]`, `[12]`, `[13]` it yields page
1's elements twice. -/
theorem members_duplicates_first_page :
    membersElems exFetch = [10, 11, 10, 11, 12, 13] ∧
    depaginateElems exFetch = [10, 11, 12, 13] ∧
    pagesConcat exFetch = [10, 11, 12, 13] ∧
    membersElems exFetch ≠ pagesConcat exFetch := by
  decide

/-- Claim C8, counterexample.  The claim says hashing a `Group` that has no
name fails; but `Group.__hash__` always supplies the `name` keyword, so
with `name = None` the key `hash(None)` is computed and returned, no error
raised. -/
theorem group_hash_with_none_name_succeeds :
    groupHash (Group.mk PyV.none) = Except.ok 0 ∧
    (Except.ok 0 : Except IdErr Int) ≠ Except.error IdErr.invalidParameters :=
  ⟨rfl, by simp⟩

/-- Claim C8, amended: computing the hash key without a `name` keyword
argument raises `InvalidParametersError`, while hashing a `Group` entity
always supplies `name = self.name` and therefore succeeds for every group,
yielding `hash(None)` when the name is absent. -/
theorem group_hash_key_name_requirement :
    hash_func none = Except.error IdErr.invalidParameters ∧
    ∀ g : Group, groupHash g = Except.ok (pyHash g.name) :=
  ⟨rfl, fun _ => rfl⟩

/-- Claim C9: for groups having (string) names, `==` coincides with name
equality and equal groups have equal hashes. -/
theorem group_eq_hash_consistent (g1 g2 : Group) (s1 s2 : String)
    (h1 : g1.name = PyV.str s1) (h2 : g2.name = PyV.str s2) :
    (groupEq g1 g2 = true ↔ g1.name = g2.name) ∧
    (groupEq g1 g2 = true → groupHash g1 = groupHash g2) := by
  constructor
  · rw [groupEq, h1, h2]
    simp [pyEq]
  · intro heq
    rw [groupEq, h1, h2] at heq
    simp [pyEq] at heq
    rw [groupHash, groupHash, h1, h2, heq]

/-- Witness for claim C9 at two groups named "metal". -/
theorem group_eq_hash_consistent_witness :
    (Group.mk (PyV.str "metal")).name = PyV.str "metal" ∧
    ((groupEq (Group.mk (PyV.str "metal")) (Group.mk (PyV.str "metal")) = true ↔
        (Group.mk (PyV.str "metal")).name = (Group.mk (PyV.str "metal")).name) ∧
      (groupEq (Group.mk (PyV.str "metal")) (Group.mk (PyV.str "metal")) = true →
        groupHash (Group.mk (PyV.str "metal")) =
          groupHash (Group.mk (PyV.str "metal")))) :=
  ⟨rfl, group_eq_hash_consistent _ _ "metal" "metal" rfl rfl⟩

end Lastfm
